import Mathlib

/-!
Verification of the cost-allocation engine of the bachboys trip-coordination
backend, via a shallow embedding of its database state and of the
attendance/cost routes into Lean.

Database tables are embedded as lists of rows (SQL SELECT ... WHERE p is
List.filter, SELECT first row is List.find?, DELETE is filtering out, INSERT is
appending).  The schema enforces a unique (user_id, event_id) key on rsvps, so
the SQL join of users with confirmed rsvps is embedded as a filter testing the
unique rsvp row found by List.find?.  Money amounts (SQL numeric columns) are
embedded as exact rationals; the human-readable notes strings built by the code
are embedded structurally as an inductive type carrying the interpolated
values, since their rendering is display-only formatting.
-/

/-- Split mode of an event: even | custom | fixed. -/
inductive SplitType where
  | even
  | custom
  | fixed
deriving DecidableEq, Repr

/-- Trip status of a user: invited | confirmed | declined | maybe. -/
inductive TripStatus where
  | invited
  | confirmed
  | declined
  | maybe
deriving DecidableEq, Repr

/-- Per-event RSVP status: pending | confirmed | declined | maybe. -/
inductive RsvpStatus where
  | pending
  | confirmed
  | declined
  | maybe
deriving DecidableEq, Repr

/-- Payment status: pending | confirmed | rejected. -/
inductive PayStatus where
  | pending
  | confirmed
  | rejected
deriving DecidableEq, Repr

/-- Row of the events table (the columns read by the engine:
id, total_cost, split_type, is_mandatory, exclude_groom). -/
structure Event where
  id : Nat
  totalCost : ℚ
  splitType : SplitType
  isMandatory : Bool
  excludeGroom : Bool
deriving DecidableEq, Repr

/-- Row of the users table (the columns the allocation engine and the
attendance routes read: id, is_groom, is_admin, trip_status, display_name). -/
structure User where
  id : Nat
  isGroom : Bool
  isAdmin : Bool
  tripStatus : TripStatus
  displayName : String
deriving DecidableEq, Repr

/-- Row of the rsvps table (user_id, event_id, status); the schema has a unique
key on (user_id, event_id). -/
structure Rsvp where
  userId : Nat
  eventId : Nat
  status : RsvpStatus
deriving DecidableEq, Repr

/-- Structural embedding of the notes strings written into event_costs rows.
Each constructor corresponds to one template string in the source, carrying the
values interpolated into it. -/
inductive Note where
  /-- "$R/person (covers groom)" (recalculateCosts.ts fixed branch). -/
  | fixedCoversGroom (rate : ℚ)
  /-- "$R/person" (recalculateCosts.ts fixed branch, groom not excluded). -/
  | fixedPerPerson (rate : ℚ)
  /-- "$T ÷ n (covers groom)" (recalculateCosts.ts even branch). -/
  | evenCoversGroom (total : ℚ) (payerCount : Nat)
  /-- "Even split". -/
  | evenSplit
  /-- "Groom — covered by the crew". -/
  | groomCovered
  /-- "$T ÷ n guests (covers groom)" (admin calculate route even branch). -/
  | adminEvenCoversGroom (total : ℚ) (payerCount : Nat)
deriving DecidableEq, Repr

/-- Row of the event_costs table (event_id, user_id, amount, notes). -/
structure CostRow where
  eventId : Nat
  userId : Nat
  amount : ℚ
  notes : Note
deriving DecidableEq, Repr

/-- Row of the payments table (the columns the balance view reads). -/
structure Payment where
  userId : Nat
  amount : ℚ
  status : PayStatus
deriving DecidableEq, Repr

/-- Row of the guest_list table (the columns AuthService.register reads:
id, is_admin, is_groom, claimed_by; the fuzzy name matching itself is plumbing
and is abstracted into looking the entry up by id). -/
structure Guest where
  gid : Nat
  isAdmin : Bool
  isGroom : Bool
  claimedBy : Option Nat
deriving DecidableEq, Repr

/-- The database state: one list of rows per table. -/
@[ext]
structure DB where
  events : List Event
  users : List User
  rsvps : List Rsvp
  eventCosts : List CostRow
  payments : List Payment
  guestList : List Guest
deriving DecidableEq, Repr

/-- SELECT ... FROM events WHERE id = eid (queryOne: first match). -/
def findEvent (db : DB) (eid : Nat) : Option Event :=
  db.events.find? (fun e => e.id == eid)

/-- SELECT ... FROM rsvps WHERE user_id = uid AND event_id = eid
(queryOne: first match; unique by schema). -/
def rsvpFor (db : DB) (uid eid : Nat) : Option Rsvp :=
  db.rsvps.find? (fun r => r.userId == uid && r.eventId == eid)

/-- Whether uid has a confirmed RSVP row for event eid; this is both the join
condition of the optional-event payer queries and the groom-attendance check of
recalculateCosts.ts lines 107-113. -/
def rsvpConfirmed (db : DB) (eid uid : Nat) : Bool :=
  match rsvpFor db uid eid with
  | some r => r.status == RsvpStatus.confirmed
  | none => false

/-- The payingAttendees query of recalculateCosts.ts lines 28-54:
mandatory events charge trip-confirmed users, optional events charge
RSVP-confirmed users, in both cases minus the groom when exclude_groom. -/
def payingAttendeeIds (db : DB) (event : Event) : List Nat :=
  if event.isMandatory then
    if event.excludeGroom then
      (db.users.filter (fun u => u.tripStatus == TripStatus.confirmed && !u.isGroom)).map (fun u => u.id)
    else
      (db.users.filter (fun u => u.tripStatus == TripStatus.confirmed)).map (fun u => u.id)
  else
    if event.excludeGroom then
      (db.users.filter (fun u => rsvpConfirmed db event.id u.id && !u.isGroom)).map (fun u => u.id)
    else
      (db.users.filter (fun u => rsvpConfirmed db event.id u.id)).map (fun u => u.id)

/-- The allAttendees query of recalculateCosts.ts lines 68-82 (used to compute
the absorbed fixed rate): attendees including the groom. -/
def allAttendeeIds (db : DB) (event : Event) : List Nat :=
  if event.isMandatory then
    (db.users.filter (fun u => u.tripStatus == TripStatus.confirmed)).map (fun u => u.id)
  else
    (db.users.filter (fun u => rsvpConfirmed db event.id u.id)).map (fun u => u.id)

/-- SELECT id FROM users WHERE is_groom = true (queryOne: first match). -/
def findGroom (db : DB) : Option User :=
  db.users.find? (fun u => u.isGroom)

/-- The per-person amount and note computed by recalculateCosts.ts lines 61-99
once the payer set is known to be non-empty. -/
def perPersonCostNote (db : DB) (event : Event) (payers : List Nat) : ℚ × Note :=
  if event.splitType == SplitType.fixed then
    if event.excludeGroom then
      ((event.totalCost * ((allAttendeeIds db event).length : ℚ)) / (payers.length : ℚ),
        Note.fixedCoversGroom event.totalCost)
    else
      (event.totalCost, Note.fixedPerPerson event.totalCost)
  else
    (event.totalCost / (payers.length : ℚ),
      if event.excludeGroom then Note.evenCoversGroom event.totalCost payers.length
      else Note.evenSplit)

/-- The groom's $0 row inserted by recalculateCosts.ts lines 103-122 when the
groom is excluded and attending (for mandatory events the code takes the groom
as attending unconditionally). -/
def groomRows (db : DB) (eid : Nat) (event : Event) : List CostRow :=
  if event.excludeGroom then
    match findGroom db with
    | some groom =>
      if event.isMandatory || rsvpConfirmed db eid groom.id then
        [CostRow.mk eid groom.id 0 Note.groomCovered]
      else []
    | none => []
  else []

/-- The outcome of recalculateEventCosts read from the pre-state:
none when the function returns before touching the table (event missing,
split_type = custom, or total_cost = 0, lines 24-26); some rows when it deletes
the event's rows and inserts rows (rows = [] for the empty-payer early return
of line 58, which happens after the DELETE of line 57).  This reads only the
events, users and rsvps tables, never event_costs. -/
def recalcResult (eid : Nat) (db : DB) : Option (List CostRow) :=
  match findEvent db eid with
  | none => none
  | some event =>
    if event.splitType == SplitType.custom then none
    else if event.totalCost == 0 then none
    else
      let payers := payingAttendeeIds db event
      if payers.length == 0 then some []
      else
        let pcn := perPersonCostNote db event payers
        some (payers.map (fun uid => CostRow.mk eid uid pcn.1 pcn.2) ++ groomRows db eid event)

/-- recalculateEventCosts of recalculateCosts.ts lines 18-125: early-exit, or
DELETE FROM event_costs WHERE event_id = eid followed by the INSERTs. -/
def recalculateEventCosts (eid : Nat) (db : DB) : DB :=
  match recalcResult eid db with
  | none => db
  | some rows =>
    { db with eventCosts := db.eventCosts.filter (fun c => c.eventId != eid) ++ rows }

/-- recalculateAllMandatoryCosts of recalculateCosts.ts lines 131-141:
recalculate every mandatory even/fixed event with nonzero cost. -/
def recalculateAllMandatoryCosts (db : DB) : DB :=
  ((db.events.filter (fun e =>
      e.isMandatory && (e.splitType == SplitType.even || e.splitType == SplitType.fixed)
        && decide (0 < e.totalCost))).map (fun e => e.id)).foldl
    (fun s eid => recalculateEventCosts eid s) db

/-- PUT /api/users/:id/trip-status (users.ts lines 111-133): a single
UPDATE users SET trip_status = status WHERE id = uid.  The route performs no
other write and in particular triggers no cost recalculation. -/
def tripStatusUpdate (uid : Nat) (status : TripStatus) (db : DB) : DB :=
  { db with users := db.users.map (fun u =>
      if u.id == uid then { u with tripStatus := status } else u) }

/-- PUT /api/users/:id (users.ts lines 62-107), restricted to the profile
columns this model carries: UPDATE users SET display_name = name WHERE id = uid. -/
def profileUpdate (uid : Nat) (name : String) (db : DB) : DB :=
  { db with users := db.users.map (fun u =>
      if u.id == uid then { u with displayName := name } else u) }

/-- The INSERT ... ON CONFLICT (user_id, event_id) DO UPDATE SET status upsert
of the RSVP route. -/
def upsertRsvp (db : DB) (uid eid : Nat) (status : RsvpStatus) : DB :=
  if db.rsvps.any (fun r => r.userId == uid && r.eventId == eid) then
    { db with rsvps := db.rsvps.map (fun r =>
        if r.userId == uid && r.eventId == eid then { r with status := status } else r) }
  else
    { db with rsvps := db.rsvps ++ [Rsvp.mk uid eid status] }

/-- PUT /api/events/:eventId/rsvp (events routes lines 122-157): 404 when the
event is missing, 400 when it is mandatory (none models the thrown AppError),
otherwise upsert the RSVP and recalculate this event's costs. -/
def rsvpUpdate (uid eid : Nat) (status : RsvpStatus) (db : DB) : Option DB :=
  match findEvent db eid with
  | none => none
  | some event =>
    if event.isMandatory then none
    else some (recalculateEventCosts eid (upsertRsvp db uid eid status))

/-- AuthService.register (config/index.ts lines 173-230), with the fuzzy guest
name matching abstracted to a guest-list lookup by id: reject when the entry is
missing or already claimed or the user id is taken, otherwise insert the user
with is_admin/is_groom inherited from the guest entry and trip_status
'confirmed', mark the entry claimed, and recalculate all mandatory costs. -/
def register (newUserId guestId : Nat) (name : String) (db : DB) : Option DB :=
  match db.guestList.find? (fun g => g.gid == guestId) with
  | none => none
  | some g =>
    if g.claimedBy.isSome then none
    else if db.users.any (fun u => u.id == newUserId) then none
    else
      let db1 := { db with users := db.users ++ [User.mk newUserId g.isGroom g.isAdmin TripStatus.confirmed name] }
      let db2 := { db1 with guestList := db1.guestList.map (fun e =>
          if e.gid == guestId then { e with claimedBy := some newUserId } else e) }
      some (recalculateAllMandatoryCosts db2)

/-- PUT /api/admin/users/:id/groom (admin/index.ts lines 383-405): when setting
a groom, first UPDATE users SET is_groom = false WHERE is_groom = true, then
UPDATE users SET is_groom = b WHERE id = uid. -/
def adminSetGroom (uid : Nat) (b : Bool) (db : DB) : DB :=
  let db1 :=
    if b then
      { db with users := db.users.map (fun u =>
          if u.isGroom then { u with isGroom := false } else u) }
    else db
  { db1 with users := db1.users.map (fun u =>
      if u.id == uid then { u with isGroom := b } else u) }

/-- The payers query of the admin calculate route (admin/index.ts lines
216-218): always the trip-confirmed users (minus the groom when
exclude_groom), with no RSVP logic even for optional events. -/
def adminPayerIds (db : DB) (event : Event) : List Nat :=
  if event.excludeGroom then
    (db.users.filter (fun u => u.tripStatus == TripStatus.confirmed && !u.isGroom)).map (fun u => u.id)
  else
    (db.users.filter (fun u => u.tripStatus == TripStatus.confirmed)).map (fun u => u.id)

/-- The per-person amount and note of the admin calculate route (admin/index.ts
lines 224-245); note that a custom split falls into the even branch here, and
the absorbed fixed rate is computed against the trip-confirmed roster. -/
def adminPerPersonCostNote (db : DB) (event : Event) (payers : List Nat) : ℚ × Note :=
  if event.splitType == SplitType.fixed then
    if event.excludeGroom then
      ((event.totalCost * (((db.users.filter (fun u => u.tripStatus == TripStatus.confirmed)).length : ℚ))) / (payers.length : ℚ),
        Note.fixedCoversGroom event.totalCost)
    else
      (event.totalCost, Note.fixedPerPerson event.totalCost)
  else
    (event.totalCost / (payers.length : ℚ),
      if event.excludeGroom then Note.adminEvenCoversGroom event.totalCost payers.length
      else Note.evenSplit)

/-- The groom $0 row of the admin calculate route (admin/index.ts lines
259-268): inserted whenever exclude_groom and a groom exists, with no
attendance check. -/
def adminGroomRows (db : DB) (eid : Nat) (event : Event) : List CostRow :=
  if event.excludeGroom then
    match findGroom db with
    | some groom => [CostRow.mk eid groom.id 0 Note.groomCovered]
    | none => []
  else []

/-- POST /api/admin/events/:id/costs/calculate (admin/index.ts lines 204-282):
404 when the event is missing (none), 400 when no payer qualifies (none, and
nothing is written since the error is thrown before the DELETE), otherwise the
event's rows are deleted and the payer rows and the groom row are inserted. -/
def adminCalculateCosts (eid : Nat) (db : DB) : Option DB :=
  match findEvent db eid with
  | none => none
  | some event =>
    let payers := adminPayerIds db event
    if payers.length == 0 then none
    else
      let pcn := adminPerPersonCostNote db event payers
      some { db with eventCosts := db.eventCosts.filter (fun c => c.eventId != eid)
          ++ (payers.map (fun uid => CostRow.mk eid uid pcn.1 pcn.2)
              ++ adminGroomRows db eid event) }

/-- The costs subquery of the user_balances view (migration 008_create_views):
SUM(amount) grouped by user over event_costs; none when the user has no row,
mirroring the LEFT JOIN producing NULL. -/
def costsGroupSum (db : DB) (uid : Nat) : Option ℚ :=
  match db.eventCosts.filter (fun c => c.userId == uid) with
  | [] => none
  | l => some ((l.map (fun c => c.amount)).sum)

/-- The payments subquery of the user_balances view: SUM(amount) over confirmed
payments grouped by user; none when the user has no confirmed payment. -/
def paymentsGroupSum (db : DB) (uid : Nat) : Option ℚ :=
  match db.payments.filter (fun p => p.userId == uid && p.status == PayStatus.confirmed) with
  | [] => none
  | l => some ((l.map (fun p => p.amount)).sum)

/-- Row of the user_balances view. -/
structure BalanceRow where
  userId : Nat
  totalOwed : ℚ
  totalPaid : ℚ
  balanceRemaining : ℚ
deriving DecidableEq, Repr

/-- The user_balances view of migration 008_create_views: one row per user,
COALESCE(total_owed, 0), COALESCE(total_paid, 0), and their difference. -/
def userBalances (db : DB) : List BalanceRow :=
  db.users.map (fun u =>
    BalanceRow.mk u.id ((costsGroupSum db u.id).getD 0) ((paymentsGroupSum db u.id).getD 0)
      (((costsGroupSum db u.id).getD 0) - ((paymentsGroupSum db u.id).getD 0)))

/-- GET /api/payments/summary (payments.ts lines 28-63): read the caller's
user_balances row and surface total_owed, total_paid, balance_remaining,
defaulting each to 0 when no row exists. -/
def paymentsSummary (db : DB) (uid : Nat) : ℚ × ℚ × ℚ :=
  match (userBalances db).find? (fun b => b.userId == uid) with
  | some b => (b.totalOwed, b.totalPaid, b.balanceRemaining)
  | none => (0, 0, 0)

/-! Helper lemmas about the engine. -/

theorem recalcResult_set_costs (eid : Nat) (db : DB) (x : List CostRow) :
    recalcResult eid { db with eventCosts := x } = recalcResult eid db := by
  cases db
  rfl

theorem groomRows_eventId (db : DB) (eid : Nat) (event : Event) :
    ∀ c ∈ groomRows db eid event, c.eventId = eid := by
  intro c hc
  unfold groomRows at hc
  split at hc
  · split at hc
    · split at hc
      · simp at hc
        subst hc
        rfl
      · simp at hc
    · simp at hc
  · simp at hc

theorem recalcResult_rows_eventId {eid : Nat} {db : DB} {rows : List CostRow}
    (h : recalcResult eid db = some rows) : ∀ c ∈ rows, c.eventId = eid := by
  unfold recalcResult at h
  split at h
  · exact absurd h (by simp)
  · split at h
    · exact absurd h (by simp)
    · split at h
      · exact absurd h (by simp)
      · simp only [] at h
        split at h
        · injection h with h
          subst h
          intro c hc
          exact absurd hc (List.not_mem_nil c)
        · injection h with h
          subst h
          intro c hc
          rcases List.mem_append.1 hc with hc | hc
          · rcases List.mem_map.1 hc with ⟨uid, _, rfl⟩
            rfl
          · exact groomRows_eventId db eid _ c hc

theorem filter_ne_event_idem (l : List CostRow) (eid : Nat) :
    (l.filter (fun c => c.eventId != eid)).filter (fun c => c.eventId != eid)
      = l.filter (fun c => c.eventId != eid) := by
  rw [List.filter_filter]
  exact List.filter_congr (by intro x _; simp)

/-- C4: recompute(eventId) is idempotent: for every event id and database
state, running recalculateEventCosts twice in a row yields exactly the same
state (hence the same set of (event, participant, amount, note) rows) as
running it once. -/
theorem recompute_idempotent (eid : Nat) (db : DB) :
    recalculateEventCosts eid (recalculateEventCosts eid db)
      = recalculateEventCosts eid db := by
  cases hr : recalcResult eid db with
  | none =>
    have e1 : recalculateEventCosts eid db = db := by
      unfold recalculateEventCosts
      rw [hr]
    rw [e1]
    exact e1
  | some rows =>
    have e1 : recalculateEventCosts eid db
        = { db with eventCosts := db.eventCosts.filter (fun c => c.eventId != eid) ++ rows } := by
      unfold recalculateEventCosts
      rw [hr]
    have hall : ∀ c ∈ rows, c.eventId = eid := recalcResult_rows_eventId hr
    have hrows : rows.filter (fun c => c.eventId != eid) = [] := by
      rw [List.filter_eq_nil_iff]
      intro c hc
      simp [hall c hc]
    rw [e1]
    unfold recalculateEventCosts
    rw [recalcResult_set_costs, hr]
    simp only []
    apply DB.ext <;> simp [List.filter_append, filter_ne_event_idem, hrows]

/-- C5: when the event does not exist, or has splitType = custom, or has
totalCost = 0, recompute is a strict no-op: the state (in particular every
CostAllocation row of every event) is unchanged. -/
theorem recompute_noop_on_missing_custom_or_zero (eid : Nat) (db : DB)
    (h : findEvent db eid = none
       ∨ ∃ event, findEvent db eid = some event
           ∧ (event.splitType = SplitType.custom ∨ event.totalCost = 0)) :
    recalculateEventCosts eid db = db := by
  have hr : recalcResult eid db = none := by
    unfold recalcResult
    rcases h with h | ⟨event, hf, hcase⟩
    · rw [h]
    · rw [hf]
      rcases hcase with hc | hc <;> simp [hc]
  unfold recalculateEventCosts
  rw [hr]

/-- Witness for C5: a custom-split event with an existing admin-authored row is
left completely untouched by recompute. -/
theorem recompute_noop_witness :
    (findEvent (DB.mk [Event.mk 7 50 SplitType.custom true true] [] []
        [CostRow.mk 7 3 25 Note.evenSplit] [] []) 7
      = some (Event.mk 7 50 SplitType.custom true true)) ∧
    recalculateEventCosts 7 (DB.mk [Event.mk 7 50 SplitType.custom true true] [] []
        [CostRow.mk 7 3 25 Note.evenSplit] [] [])
      = DB.mk [Event.mk 7 50 SplitType.custom true true] [] []
        [CostRow.mk 7 3 25 Note.evenSplit] [] [] :=
  ⟨by decide,
   recompute_noop_on_missing_custom_or_zero 7 _
     (Or.inr ⟨Event.mk 7 50 SplitType.custom true true, by decide, Or.inl rfl⟩)⟩

/-- C6: an even/fixed event with positive cost and an empty resolved payer set
has all of its existing CostAllocation rows deleted, no rows inserted (not even
a groom row), and recompute returns normally (the embedded function is total,
mirroring the code path that ends in a plain return). -/
theorem recompute_empty_payers_clears (eid : Nat) (db : DB) (event : Event)
    (hf : findEvent db eid = some event)
    (hsplit : event.splitType = SplitType.even ∨ event.splitType = SplitType.fixed)
    (hT : 0 < event.totalCost)
    (hempty : payingAttendeeIds db event = []) :
    (recalculateEventCosts eid db).eventCosts
      = db.eventCosts.filter (fun c => c.eventId != eid) := by
  have hr : recalcResult eid db = some [] := by
    unfold recalcResult
    rw [hf]
    have h1 : (event.splitType == SplitType.custom) = false := by
      rcases hsplit with h | h <;> simp [h]
    have h2 : (event.totalCost == 0) = false := by
      simp [hT.ne']
    simp [h1, h2, hempty]
  unfold recalculateEventCosts
  rw [hr]
  simp

/-- Witness for C6: a mandatory even event whose only user has declined the
trip loses its stale rows and gains none, while another event's row stays. -/
theorem recompute_empty_payers_witness :
    (payingAttendeeIds (DB.mk [Event.mk 8 100 SplitType.even true false]
        [User.mk 1 false false TripStatus.declined "a"] []
        [CostRow.mk 8 1 50 Note.evenSplit, CostRow.mk 9 1 20 Note.evenSplit] [] [])
      (Event.mk 8 100 SplitType.even true false) = []) ∧
    (recalculateEventCosts 8 (DB.mk [Event.mk 8 100 SplitType.even true false]
        [User.mk 1 false false TripStatus.declined "a"] []
        [CostRow.mk 8 1 50 Note.evenSplit, CostRow.mk 9 1 20 Note.evenSplit] [] [])).eventCosts
      = [CostRow.mk 9 1 20 Note.evenSplit] :=
  ⟨by decide,
   by
    rw [recompute_empty_payers_clears 8 _ (Event.mk 8 100 SplitType.even true false)
      (by decide) (Or.inl rfl) (by decide) (by decide)]
    decide⟩

/-- Database scenario backing C3, taken from the spec's section 8 example: a
mandatory even-split event of total 1500 with five confirmed non-groom
attendees each allocated 300, and the excluded groom allocated 0. -/
def c3DB : DB :=
  DB.mk
    [Event.mk 10 1500 SplitType.even true true]
    [User.mk 1 false false TripStatus.confirmed "a",
     User.mk 2 false false TripStatus.confirmed "b",
     User.mk 3 false false TripStatus.confirmed "c",
     User.mk 4 false false TripStatus.confirmed "d",
     User.mk 5 false false TripStatus.confirmed "e",
     User.mk 6 true false TripStatus.confirmed "g"]
    []
    [CostRow.mk 10 1 300 (Note.evenCoversGroom 1500 5),
     CostRow.mk 10 2 300 (Note.evenCoversGroom 1500 5),
     CostRow.mk 10 3 300 (Note.evenCoversGroom 1500 5),
     CostRow.mk 10 4 300 (Note.evenCoversGroom 1500 5),
     CostRow.mk 10 5 300 (Note.evenCoversGroom 1500 5),
     CostRow.mk 10 6 0 Note.groomCovered]
    [] []

/-- C3 (code bug): the trip-status update route performs only the UPDATE of
users.trip_status and never triggers a recomputation, so after one of the five
payers of the 1500 mandatory event declines, every CostAllocation row is
byte-identical to before (payer 1 still owes 300), even though running the
engine on the new roster would charge 375. -/
theorem trip_status_update_leaves_costs_stale :
    (tripStatusUpdate 5 TripStatus.declined c3DB).eventCosts = c3DB.eventCosts ∧
    ((tripStatusUpdate 5 TripStatus.declined c3DB).eventCosts.filter
        (fun c => c.userId == 1)).map (fun c => c.amount) = [300] ∧
    ((recalculateEventCosts 10 (tripStatusUpdate 5 TripStatus.declined c3DB)).eventCosts.filter
        (fun c => c.userId == 1)).map (fun c => c.amount) = [1500 / 4] ∧
    (1500 : ℚ) / 4 = 375 := by
  refine ⟨rfl, by rfl, by rfl, by norm_num⟩

theorem recalcResult_main (eid : Nat) (db : DB) (event : Event)
    (hf : findEvent db eid = some event)
    (hc : event.splitType ≠ SplitType.custom)
    (hT : event.totalCost ≠ 0)
    (hne : payingAttendeeIds db event ≠ []) :
    recalcResult eid db
      = some ((payingAttendeeIds db event).map
            (fun uid => CostRow.mk eid uid
              (perPersonCostNote db event (payingAttendeeIds db event)).1
              (perPersonCostNote db event (payingAttendeeIds db event)).2)
          ++ groomRows db eid event) := by
  unfold recalcResult
  rw [hf]
  have h1 : (event.splitType == SplitType.custom) = false := by simp [hc]
  have h2 : (event.totalCost == 0) = false := by simp [hT]
  have h3 : ((payingAttendeeIds db event).length == 0) = false := by
    simp [hne]
  simp [h1, h2, h3]

theorem recalculateEventCosts_main (eid : Nat) (db : DB) (event : Event)
    (hf : findEvent db eid = some event)
    (hc : event.splitType ≠ SplitType.custom)
    (hT : event.totalCost ≠ 0)
    (hne : payingAttendeeIds db event ≠ []) :
    (recalculateEventCosts eid db).eventCosts
      = db.eventCosts.filter (fun c => c.eventId != eid)
        ++ ((payingAttendeeIds db event).map
              (fun uid => CostRow.mk eid uid
                (perPersonCostNote db event (payingAttendeeIds db event)).1
                (perPersonCostNote db event (payingAttendeeIds db event)).2)
            ++ groomRows db eid event) := by
  unfold recalculateEventCosts
  rw [recalcResult_main eid db event hf hc hT hne]

theorem groomRows_amounts_sum (db : DB) (eid : Nat) (event : Event) :
    ((groomRows db eid event).map (fun c => c.amount)).sum = 0 := by
  unfold groomRows
  split
  · split
    · split <;> simp
    · simp
  · simp

/-- C2: for an even-split event with positive total T and a non-empty resolved
payer set of size n, recompute assigns each payer the amount T / n, and the
amounts of all the rows it leaves for the event sum to exactly T (the groom's
row, when present, is 0). -/
theorem even_split_conservation (eid : Nat) (db : DB) (event : Event)
    (hf : findEvent db eid = some event)
    (hsplit : event.splitType = SplitType.even)
    (hT : 0 < event.totalCost)
    (hne : payingAttendeeIds db event ≠ []) :
    (∀ uid ∈ payingAttendeeIds db event, ∃ note,
        CostRow.mk eid uid
            (event.totalCost / ((payingAttendeeIds db event).length : ℚ)) note
          ∈ (recalculateEventCosts eid db).eventCosts) ∧
    (((recalculateEventCosts eid db).eventCosts.filter
        (fun c => c.eventId == eid)).map (fun c => c.amount)).sum = event.totalCost := by
  have hc : event.splitType ≠ SplitType.custom := by rw [hsplit]; decide
  have hmain := recalculateEventCosts_main eid db event hf hc hT.ne' hne
  have hpcn : (perPersonCostNote db event (payingAttendeeIds db event)).1
      = event.totalCost / ((payingAttendeeIds db event).length : ℚ) := by
    unfold perPersonCostNote
    simp [hsplit]
  constructor
  · intro uid hu
    refine ⟨(perPersonCostNote db event (payingAttendeeIds db event)).2, ?_⟩
    rw [hmain]
    exact List.mem_append_right _ (List.mem_append_left _
      (List.mem_map.2 ⟨uid, hu, by rw [hpcn]⟩))
  · rw [hmain, List.filter_append, List.filter_append]
    have hF : (db.eventCosts.filter (fun c => c.eventId != eid)).filter
        (fun c => c.eventId == eid) = [] := by
      rw [List.filter_filter, List.filter_eq_nil_iff]
      intro c _
      simp
    have hP : ((payingAttendeeIds db event).map
          (fun uid => CostRow.mk eid uid
            (perPersonCostNote db event (payingAttendeeIds db event)).1
            (perPersonCostNote db event (payingAttendeeIds db event)).2)).filter
          (fun c => c.eventId == eid)
        = (payingAttendeeIds db event).map
            (fun uid => CostRow.mk eid uid
              (perPersonCostNote db event (payingAttendeeIds db event)).1
              (perPersonCostNote db event (payingAttendeeIds db event)).2) := by
      rw [List.filter_eq_self]
      intro c hcmem
      rcases List.mem_map.1 hcmem with ⟨uid, _, rfl⟩
      simp
    have hG : (groomRows db eid event).filter (fun c => c.eventId == eid)
        = groomRows db eid event := by
      rw [List.filter_eq_self]
      intro c hcmem
      simp [groomRows_eventId db eid event c hcmem]
    rw [hF, hP, hG, List.nil_append, List.map_append, List.sum_append,
      groomRows_amounts_sum, add_zero, List.map_map]
    have hmapconst : ((payingAttendeeIds db event).map
          ((fun c => c.amount) ∘ (fun uid => CostRow.mk eid uid
            (perPersonCostNote db event (payingAttendeeIds db event)).1
            (perPersonCostNote db event (payingAttendeeIds db event)).2)))
        = (payingAttendeeIds db event).map
            (fun _ => event.totalCost / ((payingAttendeeIds db event).length : ℚ)) := by
      rw [← hpcn]
      rfl
    rw [hmapconst, List.map_const', List.sum_replicate, nsmul_eq_mul]
    have hn : ((payingAttendeeIds db event).length : ℚ) ≠ 0 := by
      simp [hne]
    rw [mul_comm, div_mul_cancel₀ _ hn]

/-- Witness for C2: a mandatory even event of 90 split among three confirmed
payers gives each 90/3 and conserves the total. -/
theorem even_split_conservation_witness :
    (0 : ℚ) < 90 ∧
    ((∀ uid ∈ payingAttendeeIds
          (DB.mk [Event.mk 20 90 SplitType.even true false]
            [User.mk 1 false false TripStatus.confirmed "a",
             User.mk 2 false false TripStatus.confirmed "b",
             User.mk 3 false false TripStatus.confirmed "c"] [] [] [] [])
          (Event.mk 20 90 SplitType.even true false), ∃ note,
        CostRow.mk 20 uid
            ((90 : ℚ) / ((payingAttendeeIds
              (DB.mk [Event.mk 20 90 SplitType.even true false]
                [User.mk 1 false false TripStatus.confirmed "a",
                 User.mk 2 false false TripStatus.confirmed "b",
                 User.mk 3 false false TripStatus.confirmed "c"] [] [] [] [])
              (Event.mk 20 90 SplitType.even true false)).length : ℚ)) note
          ∈ (recalculateEventCosts 20
              (DB.mk [Event.mk 20 90 SplitType.even true false]
                [User.mk 1 false false TripStatus.confirmed "a",
                 User.mk 2 false false TripStatus.confirmed "b",
                 User.mk 3 false false TripStatus.confirmed "c"] [] [] [] [])).eventCosts) ∧
      (((recalculateEventCosts 20
            (DB.mk [Event.mk 20 90 SplitType.even true false]
              [User.mk 1 false false TripStatus.confirmed "a",
               User.mk 2 false false TripStatus.confirmed "b",
               User.mk 3 false false TripStatus.confirmed "c"] [] [] [] [])).eventCosts.filter
          (fun c => c.eventId == 20)).map (fun c => c.amount)).sum = 90) :=
  ⟨by decide,
   even_split_conservation 20 _ (Event.mk 20 90 SplitType.even true false)
     (by decide) rfl (by decide) (by decide)⟩

theorem costsGroupSum_getD (db : DB) (uid : Nat) :
    (costsGroupSum db uid).getD 0
      = ((db.eventCosts.filter (fun c => c.userId == uid)).map (fun c => c.amount)).sum := by
  unfold costsGroupSum
  cases h : db.eventCosts.filter (fun c => c.userId == uid) with
  | nil => simp
  | cons a l => simp

theorem paymentsGroupSum_getD (db : DB) (uid : Nat) :
    (paymentsGroupSum db uid).getD 0
      = ((db.payments.filter (fun p => p.userId == uid && p.status == PayStatus.confirmed)).map
          (fun p => p.amount)).sum := by
  unfold paymentsGroupSum
  cases h : db.payments.filter (fun p => p.userId == uid && p.status == PayStatus.confirmed) with
  | nil => simp
  | cons a l => simp

theorem userBalances_find (db : DB) (uid : Nat)
    (h : uid ∈ db.users.map (fun u => u.id)) :
    (userBalances db).find? (fun b => b.userId == uid)
      = some (BalanceRow.mk uid ((costsGroupSum db uid).getD 0)
          ((paymentsGroupSum db uid).getD 0)
          (((costsGroupSum db uid).getD 0) - ((paymentsGroupSum db uid).getD 0))) := by
  unfold userBalances
  revert h
  induction db.users with
  | nil => intro h; simp at h
  | cons x xs ih =>
    intro h
    by_cases hx : (x.id == uid) = true
    · have hxid : x.id = uid := by simpa using hx
      subst hxid
      simp [List.find?_cons]
    · have hxf : (x.id == uid) = false := by simpa using hx
      have hmem : uid ∈ xs.map (fun u => u.id) := by
        simp only [List.map_cons, List.mem_cons] at h
        rcases h with h1 | h1
        · exact absurd (by simp [h1]) hx
        · exact h1
      simp only [List.map_cons, List.find?_cons, hxf]
      exact ih hmem

/-- C7: for a participant present in the roster, the payment summary returns
exactly (O, P, O - P), where O is the sum of the participant's CostAllocation
amounts across all events and P is the sum of their confirmed payments only;
the remaining amount is surfaced as O - P with no clamping, so it is negative
whenever P exceeds O. -/
theorem balance_consistency (db : DB) (uid : Nat)
    (h : uid ∈ db.users.map (fun u => u.id)) :
    paymentsSummary db uid
      = (((db.eventCosts.filter (fun c => c.userId == uid)).map (fun c => c.amount)).sum,
         ((db.payments.filter (fun p => p.userId == uid && p.status == PayStatus.confirmed)).map
            (fun p => p.amount)).sum,
         ((db.eventCosts.filter (fun c => c.userId == uid)).map (fun c => c.amount)).sum
           - ((db.payments.filter (fun p => p.userId == uid && p.status == PayStatus.confirmed)).map
              (fun p => p.amount)).sum) := by
  unfold paymentsSummary
  rw [userBalances_find db uid h]
  simp [costsGroupSum_getD, paymentsGroupSum_getD]

/-- Database scenario backing the C7 witness: one participant owing 300 with a
confirmed payment of 400 (overpayment) and a pending payment of 50 that must
not count. -/
def c7DB : DB :=
  DB.mk [] [User.mk 1 false false TripStatus.confirmed "a"] []
    [CostRow.mk 10 1 300 Note.evenSplit]
    [Payment.mk 1 400 PayStatus.confirmed, Payment.mk 1 50 PayStatus.pending] []

/-- Witness for C7: at the overpayment scenario the summary is
(300, 400, 300 - 400), the pending 50 being ignored and the negative remaining
surfaced unclamped. -/
theorem balance_consistency_witness :
    (1 ∈ c7DB.users.map (fun u => u.id)) ∧
    paymentsSummary c7DB 1
      = (((c7DB.eventCosts.filter (fun c => c.userId == 1)).map (fun c => c.amount)).sum,
         ((c7DB.payments.filter (fun p => p.userId == 1 && p.status == PayStatus.confirmed)).map
            (fun p => p.amount)).sum,
         ((c7DB.eventCosts.filter (fun c => c.userId == 1)).map (fun c => c.amount)).sum
           - ((c7DB.payments.filter (fun p => p.userId == 1 && p.status == PayStatus.confirmed)).map
              (fun p => p.amount)).sum) ∧
    ((c7DB.eventCosts.filter (fun c => c.userId == 1)).map (fun c => c.amount)).sum = 300 ∧
    ((c7DB.payments.filter (fun p => p.userId == 1 && p.status == PayStatus.confirmed)).map
        (fun p => p.amount)).sum = 400 :=
  ⟨by decide, balance_consistency c7DB 1 (by decide), by simp [c7DB], by simp [c7DB]⟩

theorem findEvent_id {db : DB} {eid : Nat} {event : Event}
    (hf : findEvent db eid = some event) : event.id = eid := by
  have h := List.find?_some hf
  simpa using h

theorem length_filter_groom_split (l : List User) (p : User → Bool) :
    (l.filter p).length
      = (l.filter (fun u => p u && !u.isGroom)).length
        + (l.filter (fun u => p u && u.isGroom)).length := by
  induction l with
  | nil => rfl
  | cons x xs ih =>
    by_cases hp : p x = true <;> by_cases hg : x.isGroom = true <;>
      simp [List.filter_cons, hp, hg, ih] <;> omega

theorem find?_of_filter_singleton {α : Type} (l : List α) (p : α → Bool) (a : α)
    (h : l.filter p = [a]) : l.find? p = some a := by
  induction l with
  | nil => simp at h
  | cons x xs ih =>
    by_cases hp : p x = true
    · rw [List.filter_cons_of_pos hp] at h
      have hx : x = a := by
        have := congrArg (fun t => t.head?) h
        simpa using this
      rw [List.find?_cons_of_pos xs hp, hx]
    · have hp' : ¬ p x := by simpa using hp
      rw [List.filter_cons_of_neg hp'] at h
      rw [List.find?_cons_of_neg xs hp']
      exact ih h

theorem filter_and_groom_singleton (l : List User) (p : User → Bool) (g : User)
    (hg : l.filter (fun u => u.isGroom) = [g]) (hp : p g = true) :
    l.filter (fun u => p u && u.isGroom) = [g] := by
  rw [← List.filter_filter, hg, List.filter_cons, hp]
  simp

/-- C1 (amended): for a fixed-split event with per-person rate R that is not
zero, excludeGroom = true, exactly one groom who is attending (trip-confirmed
for a mandatory event, RSVP-confirmed for an optional one), and a non-empty
payer set of size n, recompute replaces the event's rows with one row of
amount R * (n + 1) / n per payer followed by the groom's row of amount 0.
The amendment adds R = 0 being excluded: at R = 0 the engine early-exits and
inserts nothing (see the counterexample). -/
theorem fixed_absorption_amended (eid : Nat) (db : DB) (event : Event) (g : User)
    (hf : findEvent db eid = some event)
    (hsplit : event.splitType = SplitType.fixed)
    (hex : event.excludeGroom = true)
    (hT : event.totalCost ≠ 0)
    (hgroom : db.users.filter (fun u => u.isGroom) = [g])
    (hatt : (if event.isMandatory then g.tripStatus == TripStatus.confirmed
             else rsvpConfirmed db eid g.id) = true)
    (hne : payingAttendeeIds db event ≠ []) :
    (recalculateEventCosts eid db).eventCosts
      = db.eventCosts.filter (fun c => c.eventId != eid)
        ++ ((payingAttendeeIds db event).map (fun uid =>
              CostRow.mk eid uid
                (event.totalCost * (((payingAttendeeIds db event).length : ℚ) + 1)
                  / ((payingAttendeeIds db event).length : ℚ))
                (Note.fixedCoversGroom event.totalCost))
            ++ [CostRow.mk eid g.id 0 Note.groomCovered]) := by
  have hid : event.id = eid := findEvent_id hf
  have hc : event.splitType ≠ SplitType.custom := by rw [hsplit]; decide
  have hmain := recalculateEventCosts_main eid db event hf hc hT hne
  have hfg : findGroom db = some g := find?_of_filter_singleton _ _ _ hgroom
  have hattB : (event.isMandatory || rsvpConfirmed db eid g.id) = true := by
    by_cases hm : event.isMandatory = true
    · simp [hm]
    · have hm' : event.isMandatory = false := by simpa using hm
      rw [hm'] at hatt
      simp only [Bool.false_eq_true, if_false] at hatt
      simp [hm', hatt]
  have hgr : groomRows db eid event = [CostRow.mk eid g.id 0 Note.groomCovered] := by
    unfold groomRows
    rw [hex, hfg]
    simp [hattB]
  have hcount : (allAttendeeIds db event).length = (payingAttendeeIds db event).length + 1 := by
    by_cases hm : event.isMandatory = true
    · have hpg : (g.tripStatus == TripStatus.confirmed) = true := by
        rw [hm] at hatt
        simpa using hatt
      have h1 : (db.users.filter (fun u => u.tripStatus == TripStatus.confirmed)).length
          = (db.users.filter (fun u => u.tripStatus == TripStatus.confirmed && !u.isGroom)).length
            + (db.users.filter (fun u => u.tripStatus == TripStatus.confirmed && u.isGroom)).length :=
        length_filter_groom_split db.users (fun u => u.tripStatus == TripStatus.confirmed)
      have h2 : db.users.filter (fun u => u.tripStatus == TripStatus.confirmed && u.isGroom) = [g] :=
        filter_and_groom_singleton db.users (fun u => u.tripStatus == TripStatus.confirmed) g hgroom hpg
      unfold allAttendeeIds payingAttendeeIds
      rw [hm, hex]
      simp only [if_true, List.length_map]
      rw [h1, h2]
      rfl
    · have hm' : event.isMandatory = false := by simpa using hm
      have hpg : rsvpConfirmed db event.id g.id = true := by
        rw [hm'] at hatt
        simp only [Bool.false_eq_true, if_false] at hatt
        rw [hid]
        exact hatt
      have h1 : (db.users.filter (fun u => rsvpConfirmed db event.id u.id)).length
          = (db.users.filter (fun u => rsvpConfirmed db event.id u.id && !u.isGroom)).length
            + (db.users.filter (fun u => rsvpConfirmed db event.id u.id && u.isGroom)).length :=
        length_filter_groom_split db.users (fun u => rsvpConfirmed db event.id u.id)
      have h2 : db.users.filter (fun u => rsvpConfirmed db event.id u.id && u.isGroom) = [g] :=
        filter_and_groom_singleton db.users (fun u => rsvpConfirmed db event.id u.id) g hgroom hpg
      unfold allAttendeeIds payingAttendeeIds
      rw [hm', hex]
      simp only [Bool.false_eq_true, if_false, if_true, List.length_map]
      rw [h1, h2]
      rfl
  have hpcn1 : (perPersonCostNote db event (payingAttendeeIds db event)).1
      = event.totalCost * (((payingAttendeeIds db event).length : ℚ) + 1)
          / ((payingAttendeeIds db event).length : ℚ) := by
    unfold perPersonCostNote
    rw [hsplit, hex]
    simp only [beq_self_eq_true, if_true]
    rw [hcount]
    push_cast
    rfl
  have hpcn2 : (perPersonCostNote db event (payingAttendeeIds db event)).2
      = Note.fixedCoversGroom event.totalCost := by
    unfold perPersonCostNote
    rw [hsplit, hex]
    simp
  rw [hmain, hgr, hpcn1, hpcn2]

/-- Counterexample for C1 as frozen: at rate R = 0 (a value the claim's
quantification admits) with an attending excluded groom and two payers,
recompute is an early-exit no-op inserting no rows at all, instead of
inserting payer rows of amount 0 * (2 + 1) / 2 and a groom row of 0. -/
theorem fixed_absorption_zero_rate_counterexample :
    (payingAttendeeIds
        (DB.mk [Event.mk 30 0 SplitType.fixed true true]
          [User.mk 1 false false TripStatus.confirmed "a",
           User.mk 2 false false TripStatus.confirmed "b",
           User.mk 3 true false TripStatus.confirmed "g"] [] [] [] [])
        (Event.mk 30 0 SplitType.fixed true true) = [1, 2]) ∧
    ((DB.mk [Event.mk 30 0 SplitType.fixed true true]
        [User.mk 1 false false TripStatus.confirmed "a",
         User.mk 2 false false TripStatus.confirmed "b",
         User.mk 3 true false TripStatus.confirmed "g"] [] [] [] []).users.filter
      (fun u => u.isGroom) = [User.mk 3 true false TripStatus.confirmed "g"]) ∧
    recalculateEventCosts 30
        (DB.mk [Event.mk 30 0 SplitType.fixed true true]
          [User.mk 1 false false TripStatus.confirmed "a",
           User.mk 2 false false TripStatus.confirmed "b",
           User.mk 3 true false TripStatus.confirmed "g"] [] [] [] [])
      = DB.mk [Event.mk 30 0 SplitType.fixed true true]
          [User.mk 1 false false TripStatus.confirmed "a",
           User.mk 2 false false TripStatus.confirmed "b",
           User.mk 3 true false TripStatus.confirmed "g"] [] [] [] [] ∧
    (recalculateEventCosts 30
        (DB.mk [Event.mk 30 0 SplitType.fixed true true]
          [User.mk 1 false false TripStatus.confirmed "a",
           User.mk 2 false false TripStatus.confirmed "b",
           User.mk 3 true false TripStatus.confirmed "g"] [] [] [] [])).eventCosts = [] := by
  refine ⟨by decide, by decide, ?_, ?_⟩
  · exact recompute_noop_on_missing_custom_or_zero 30 _
      (Or.inr ⟨Event.mk 30 0 SplitType.fixed true true, by decide, Or.inr rfl⟩)
  · rw [recompute_noop_on_missing_custom_or_zero 30 _
      (Or.inr ⟨Event.mk 30 0 SplitType.fixed true true, by decide, Or.inr rfl⟩)]

/-- Database scenario backing the C1 witness: a mandatory fixed event of rate
100 with two trip-confirmed payers and a trip-confirmed excluded groom. -/
def c1DB : DB :=
  DB.mk [Event.mk 31 100 SplitType.fixed true true]
    [User.mk 1 false false TripStatus.confirmed "a",
     User.mk 2 false false TripStatus.confirmed "b",
     User.mk 3 true false TripStatus.confirmed "g"] [] [] [] []

/-- Witness for the amended C1: each of the two payers absorbs
100 * (2 + 1) / 2 and the groom's row is 0. -/
theorem fixed_absorption_amended_witness :
    (recalculateEventCosts 31 c1DB).eventCosts
      = c1DB.eventCosts.filter (fun c => c.eventId != 31)
        ++ ((payingAttendeeIds c1DB (Event.mk 31 100 SplitType.fixed true true)).map (fun uid =>
              CostRow.mk 31 uid
                ((100 : ℚ) * (((payingAttendeeIds c1DB (Event.mk 31 100 SplitType.fixed true true)).length : ℚ) + 1)
                  / ((payingAttendeeIds c1DB (Event.mk 31 100 SplitType.fixed true true)).length : ℚ))
                (Note.fixedCoversGroom 100))
            ++ [CostRow.mk 31 3 0 Note.groomCovered]) :=
  fixed_absorption_amended 31 c1DB (Event.mk 31 100 SplitType.fixed true true)
    (User.mk 3 true false TripStatus.confirmed "g")
    (by decide) rfl rfl (by decide) (by decide) (by decide) (by decide)

theorem upsertRsvp_users (db : DB) (u eid : Nat) (st : RsvpStatus) :
    (upsertRsvp db u eid st).users = db.users := by
  unfold upsertRsvp
  split <;> rfl

theorem upsertRsvp_events (db : DB) (u eid : Nat) (st : RsvpStatus) :
    (upsertRsvp db u eid st).events = db.events := by
  unfold upsertRsvp
  split <;> rfl

theorem upsertRsvp_eventCosts (db : DB) (u eid : Nat) (st : RsvpStatus) :
    (upsertRsvp db u eid st).eventCosts = db.eventCosts := by
  unfold upsertRsvp
  split <;> rfl

theorem findEvent_upsertRsvp (db : DB) (u eid : Nat) (st : RsvpStatus) (k : Nat) :
    findEvent (upsertRsvp db u eid st) k = findEvent db k := by
  unfold findEvent
  rw [upsertRsvp_events]

theorem rsvp_find_map_self (l : List Rsvp) (u eid : Nat) (st : RsvpStatus) :
    (l.map (fun r => if r.userId == u && r.eventId == eid then { r with status := st } else r)).find?
        (fun r => r.userId == u && r.eventId == eid)
      = (l.find? (fun r => r.userId == u && r.eventId == eid)).map
          (fun r => { r with status := st }) := by
  induction l with
  | nil => rfl
  | cons x xs ih =>
    simp only [List.map_cons]
    by_cases hx : (x.userId == u && x.eventId == eid) = true
    · rw [if_pos hx]
      simp only [List.find?_cons]
      rw [hx]
      rfl
    · have hxf : (x.userId == u && x.eventId == eid) = false := by simpa using hx
      rw [if_neg hx]
      simp only [List.find?_cons]
      rw [hxf]
      exact ih

theorem rsvp_find_map_other (l : List Rsvp) (u eid w k : Nat) (st : RsvpStatus)
    (hw : w ≠ u) :
    (l.map (fun r => if r.userId == u && r.eventId == eid then { r with status := st } else r)).find?
        (fun r => r.userId == w && r.eventId == k)
      = l.find? (fun r => r.userId == w && r.eventId == k) := by
  induction l with
  | nil => rfl
  | cons x xs ih =>
    simp only [List.map_cons]
    by_cases hx : (x.userId == u && x.eventId == eid) = true
    · have hx2 : x.userId = u ∧ x.eventId = eid := by
        simpa using hx
      have hcf : (x.userId == w && x.eventId == k) = false := by
        have hxw : (x.userId == w) = false := by
          simp only [hx2.1, beq_eq_false_iff_ne, ne_eq]
          exact fun h => hw h.symm
        rw [hxw]
        rfl
      rw [if_pos hx]
      simp only [List.find?_cons]
      rw [hcf]
      exact ih
    · rw [if_neg hx]
      simp only [List.find?_cons]
      by_cases hxw : (x.userId == w && x.eventId == k) = true
      · rw [hxw]
      · have hxwf : (x.userId == w && x.eventId == k) = false := by simpa using hxw
        rw [hxwf]
        exact ih

theorem rsvpConfirmed_upsert_self (db : DB) (u eid : Nat) (st : RsvpStatus) :
    rsvpConfirmed (upsertRsvp db u eid st) eid u = (st == RsvpStatus.confirmed) := by
  unfold rsvpConfirmed rsvpFor upsertRsvp
  by_cases hany : (db.rsvps.any (fun r => r.userId == u && r.eventId == eid)) = true
  · simp only [hany, if_true]
    rw [rsvp_find_map_self]
    rcases hfind : db.rsvps.find? (fun r => r.userId == u && r.eventId == eid) with _ | r
    · rw [List.find?_eq_none] at hfind
      rcases List.any_eq_true.1 hany with ⟨r, hr, hpr⟩
      exact absurd hpr (hfind r hr)
    · rw [hfind]
      rfl
  · have hanyf : (db.rsvps.any (fun r => r.userId == u && r.eventId == eid)) = false := by
      simpa using hany
    simp only [hanyf, Bool.false_eq_true, if_false]
    rw [List.find?_append]
    have hnone : db.rsvps.find? (fun r => r.userId == u && r.eventId == eid) = none := by
      rw [List.find?_eq_none]
      intro r hr
      have := List.any_eq_false.1 hanyf r hr
      simpa using this
    rw [hnone]
    simp

theorem rsvpConfirmed_upsert_other (db : DB) (u eid : Nat) (st : RsvpStatus) (w : Nat)
    (hw : w ≠ u) :
    rsvpConfirmed (upsertRsvp db u eid st) eid w = rsvpConfirmed db eid w := by
  unfold rsvpConfirmed rsvpFor upsertRsvp
  by_cases hany : (db.rsvps.any (fun r => r.userId == u && r.eventId == eid)) = true
  · simp only [hany, if_true]
    rw [rsvp_find_map_other _ _ _ _ _ _ hw]
  · have hanyf : (db.rsvps.any (fun r => r.userId == u && r.eventId == eid)) = false := by
      simpa using hany
    simp only [hanyf, Bool.false_eq_true, if_false]
    rw [List.find?_append]
    have hnew : (List.find? (fun r => r.userId == w && r.eventId == eid) [Rsvp.mk u eid st]) = none := by
      have : ((Rsvp.mk u eid st).userId == w && (Rsvp.mk u eid st).eventId == eid) = false := by
        have hne : (u == w) = false := by
          simp only [beq_eq_false_iff_ne, ne_eq]
          exact fun h => hw h.symm
        show (u == w && eid == eid) = false
        rw [hne]
        rfl
      have hneg : ¬ (((Rsvp.mk u eid st).userId == w
          && (Rsvp.mk u eid st).eventId == eid) = true) := by
        rw [this]
        simp
      rw [List.find?_singleton, if_neg hneg]
    rw [hnew, Option.or_none]

theorem filter_rsvp_upsert (db : DB) (eid u : Nat) (st : RsvpStatus) (q : User → Bool)
    (hst : (st == RsvpStatus.confirmed) = false) :
    db.users.filter (fun w => rsvpConfirmed (upsertRsvp db u eid st) eid w.id && q w)
      = db.users.filter (fun w => (w.id != u) && (rsvpConfirmed db eid w.id && q w)) := by
  apply List.filter_congr
  intro w _
  by_cases hwu : w.id = u
  · rw [hwu, rsvpConfirmed_upsert_self, hst]
    simp
  · rw [rsvpConfirmed_upsert_other db u eid st w.id hwu]
    have : (w.id != u) = true := by simpa using hwu
    rw [this, Bool.true_and]

theorem length_filter_remove_one (l : List User) (q : User → Bool) (u : Nat)
    (hpk : (l.map (fun w => w.id)).Nodup)
    (w0 : User) (hw0 : w0 ∈ l) (hw0id : w0.id = u) (hw0q : q w0 = true) :
    (l.filter (fun w => (w.id != u) && q w)).length + 1 = (l.filter q).length := by
  revert hpk hw0
  induction l with
  | nil =>
    intro hpk hw0
    cases hw0
  | cons x xs ih =>
    intro hpk hw0
    have hpk' : (xs.map (fun w => w.id)).Nodup := (List.nodup_cons.1 hpk).2
    have hxnot : x.id ∉ xs.map (fun w => w.id) := (List.nodup_cons.1 hpk).1
    by_cases hxu : x.id = u
    · have hw0x : w0 = x := by
        rcases List.mem_cons.1 hw0 with h | h
        · exact h
        · exfalso
          apply hxnot
          rw [hxu, ← hw0id]
          exact List.mem_map.2 ⟨w0, h, rfl⟩
      have hqx : q x = true := hw0x ▸ hw0q
      have hfx : ¬ (((x.id != u) && q x) = true) := by simp [hxu]
      simp only [List.filter_cons]
      rw [if_neg hfx, if_pos hqx]
      have hsame : xs.filter (fun w => (w.id != u) && q w) = xs.filter q := by
        apply List.filter_congr
        intro w hwmem
        have hne : w.id ≠ u := by
          intro hcontra
          apply hxnot
          exact List.mem_map.2 ⟨w, hwmem, by rw [hcontra, hxu]⟩
        have : (w.id != u) = true := by simpa using hne
        rw [this, Bool.true_and]
      rw [hsame]
      rfl
    · rcases List.mem_cons.1 hw0 with h | h
      · exfalso
        apply hxu
        rw [← h]
        exact hw0id
      · by_cases hqx : q x = true
        · have hboth : ((x.id != u) && q x) = true := by
            have : (x.id != u) = true := by simpa using hxu
            rw [this, hqx]
            rfl
          simp only [List.filter_cons]
          rw [if_pos hboth, if_pos hqx]
          simp only [List.length_cons]
          have := ih hpk' h
          omega
        · have hqxf : ¬ (q x = true) := hqx
          have hbothf : ¬ (((x.id != u) && q x) = true) := by
            simp only [Bool.and_eq_true]
            exact fun hcontra => hqxf hcontra.2
          simp only [List.filter_cons]
          rw [if_neg hbothf, if_neg hqxf]
          exact ih hpk' h

theorem payers_after_upsert (db : DB) (eid : Nat) (event : Event) (u : Nat) (st : RsvpStatus)
    (q : User → Bool)
    (hst : (st == RsvpStatus.confirmed) = false)
    (hpk : (db.users.map (fun w => w.id)).Nodup)
    (hPdef : payingAttendeeIds db event
      = (db.users.filter (fun w => rsvpConfirmed db eid w.id && q w)).map (fun w => w.id))
    (hP1def : payingAttendeeIds (upsertRsvp db u eid st) event
      = ((upsertRsvp db u eid st).users.filter
          (fun w => rsvpConfirmed (upsertRsvp db u eid st) eid w.id && q w)).map (fun w => w.id))
    (hu : u ∈ payingAttendeeIds db event) :
    payingAttendeeIds (upsertRsvp db u eid st) event
      = (db.users.filter (fun w => (w.id != u) && (rsvpConfirmed db eid w.id && q w))).map
          (fun w => w.id)
    ∧ (payingAttendeeIds (upsertRsvp db u eid st) event).length + 1
        = (payingAttendeeIds db event).length := by
  have heq : payingAttendeeIds (upsertRsvp db u eid st) event
      = (db.users.filter (fun w => (w.id != u) && (rsvpConfirmed db eid w.id && q w))).map
          (fun w => w.id) := by
    rw [hP1def, upsertRsvp_users]
    exact congrArg _ (filter_rsvp_upsert db eid u st q hst)
  refine ⟨heq, ?_⟩
  rw [hPdef] at hu
  rcases List.mem_map.1 hu with ⟨w0, hw0f, hw0id⟩
  rcases List.mem_filter.1 hw0f with ⟨hw0mem, hw0pred⟩
  rw [heq, hPdef, List.length_map, List.length_map]
  exact length_filter_remove_one db.users (fun w => rsvpConfirmed db eid w.id && q w) u hpk
    w0 hw0mem hw0id hw0pred

theorem payingAttendeeIds_optional_ex (db' : DB) (event : Event)
    (hm : event.isMandatory = false) (hex : event.excludeGroom = true) :
    payingAttendeeIds db' event
      = (db'.users.filter (fun w => rsvpConfirmed db' event.id w.id && !w.isGroom)).map
          (fun w => w.id) := by
  unfold payingAttendeeIds
  rw [hm, hex]
  simp

theorem payingAttendeeIds_optional_noex (db' : DB) (event : Event)
    (hm : event.isMandatory = false) (hex : event.excludeGroom = false) :
    payingAttendeeIds db' event
      = (db'.users.filter (fun w => rsvpConfirmed db' event.id w.id)).map (fun w => w.id) := by
  unfold payingAttendeeIds
  rw [hm, hex]
  simp

/-- C8: for an optional even-split event with total T > 0 and n > 1
RSVP-confirmed payers each currently allocated T / n, changing one payer's RSVP
to any non-confirmed status through the RSVP route succeeds and, after the
triggered recomputation, every remaining payer holds a row of exactly
T / (n - 1).  Roster ids are assumed unique (the users table primary key). -/
theorem rsvp_attendance_reactivity (db : DB) (eid : Nat) (event : Event) (u : Nat)
    (st : RsvpStatus)
    (hf : findEvent db eid = some event)
    (hopt : event.isMandatory = false)
    (hsplit : event.splitType = SplitType.even)
    (hT : 0 < event.totalCost)
    (hpk : (db.users.map (fun w => w.id)).Nodup)
    (hn : 1 < (payingAttendeeIds db event).length)
    (hu : u ∈ payingAttendeeIds db event)
    (hst : (st == RsvpStatus.confirmed) = false)
    (hcur : ∀ uid ∈ payingAttendeeIds db event,
        ((db.eventCosts.filter (fun c => c.eventId == eid && c.userId == uid)).map
          (fun c => c.amount))
          = [event.totalCost / ((payingAttendeeIds db event).length : ℚ)]) :
    ∃ db2, rsvpUpdate u eid st db = some db2 ∧
      ∀ uid ∈ payingAttendeeIds db event, uid ≠ u →
        ∃ note, CostRow.mk eid uid
            (event.totalCost / ((((payingAttendeeIds db event).length - 1 : ℕ)) : ℚ)) note
          ∈ db2.eventCosts := by
  have hid : event.id = eid := findEvent_id hf
  have hc : event.splitType ≠ SplitType.custom := by rw [hsplit]; decide
  have hkey : ∃ q : User → Bool,
      payingAttendeeIds db event
        = (db.users.filter (fun w => rsvpConfirmed db eid w.id && q w)).map (fun w => w.id)
      ∧ payingAttendeeIds (upsertRsvp db u eid st) event
        = ((upsertRsvp db u eid st).users.filter
            (fun w => rsvpConfirmed (upsertRsvp db u eid st) eid w.id && q w)).map
              (fun w => w.id) := by
    by_cases hex : event.excludeGroom = true
    · refine ⟨fun w => !w.isGroom, ?_, ?_⟩
      · rw [payingAttendeeIds_optional_ex db event hopt hex, hid]
      · rw [payingAttendeeIds_optional_ex (upsertRsvp db u eid st) event hopt hex, hid]
    · have hexf : event.excludeGroom = false := by simpa using hex
      refine ⟨fun _ => true, ?_, ?_⟩
      · rw [payingAttendeeIds_optional_noex db event hopt hexf, hid]
        exact congrArg _ (List.filter_congr (fun w _ => (Bool.and_true _).symm))
      · rw [payingAttendeeIds_optional_noex (upsertRsvp db u eid st) event hopt hexf, hid]
        exact congrArg _ (List.filter_congr (fun w _ => (Bool.and_true _).symm))
  rcases hkey with ⟨q, hPdef, hP1def⟩
  rcases payers_after_upsert db eid event u st q hst hpk hPdef hP1def hu with ⟨hP1, hlen⟩
  have hfe1 : findEvent (upsertRsvp db u eid st) eid = some event := by
    rw [findEvent_upsertRsvp]
    exact hf
  have hne1 : payingAttendeeIds (upsertRsvp db u eid st) event ≠ [] := by
    intro hcontra
    rw [hcontra] at hlen
    simp only [List.length_nil, Nat.zero_add] at hlen
    omega
  have hmain := recalculateEventCosts_main eid (upsertRsvp db u eid st) event hfe1 hc
    (ne_of_gt hT) hne1
  have hpcn1 : (perPersonCostNote (upsertRsvp db u eid st) event
      (payingAttendeeIds (upsertRsvp db u eid st) event)).1
      = event.totalCost / ((payingAttendeeIds (upsertRsvp db u eid st) event).length : ℚ) := by
    unfold perPersonCostNote
    simp [hsplit]
  refine ⟨recalculateEventCosts eid (upsertRsvp db u eid st), ?_, ?_⟩
  · unfold rsvpUpdate
    rw [hf]
    simp [hopt]
  · intro uid hmem hneu
    refine ⟨(perPersonCostNote (upsertRsvp db u eid st) event
      (payingAttendeeIds (upsertRsvp db u eid st) event)).2, ?_⟩
    have hmem1 : uid ∈ payingAttendeeIds (upsertRsvp db u eid st) event := by
      rw [hPdef] at hmem
      rcases List.mem_map.1 hmem with ⟨w, hwf, hwid⟩
      rcases List.mem_filter.1 hwf with ⟨hwmem, hwpred⟩
      rw [hP1]
      refine List.mem_map.2 ⟨w, List.mem_filter.2 ⟨hwmem, ?_⟩, hwid⟩
      have hwne : (w.id != u) = true := by
        simp only [bne_iff_ne, ne_eq]
        rw [hwid]
        exact hneu
      rw [hwne, Bool.true_and]
      exact hwpred
    have hlencast : ((payingAttendeeIds (upsertRsvp db u eid st) event).length : ℚ)
        = ((((payingAttendeeIds db event).length - 1 : ℕ)) : ℚ) := by
      have hl : (payingAttendeeIds (upsertRsvp db u eid st) event).length
          = (payingAttendeeIds db event).length - 1 := by omega
      rw [hl]
    rw [hmain]
    refine List.mem_append_right _ (List.mem_append_left _ (List.mem_map.2 ⟨uid, hmem1, ?_⟩))
    rw [hpcn1, hlencast]

/-- Database scenario backing the C8 witness: an optional even event of 90
with three RSVP-confirmed payers currently allocated 90/3 each. -/
def c8DB : DB :=
  DB.mk [Event.mk 40 90 SplitType.even false false]
    [User.mk 1 false false TripStatus.confirmed "a",
     User.mk 2 false false TripStatus.confirmed "b",
     User.mk 3 false false TripStatus.confirmed "c"]
    [Rsvp.mk 1 40 RsvpStatus.confirmed, Rsvp.mk 2 40 RsvpStatus.confirmed,
     Rsvp.mk 3 40 RsvpStatus.confirmed]
    [CostRow.mk 40 1 (90 / 3) Note.evenSplit, CostRow.mk 40 2 (90 / 3) Note.evenSplit,
     CostRow.mk 40 3 (90 / 3) Note.evenSplit]
    [] []

/-- Witness for C8: after payer 3 declines, each remaining payer owes
90 / (3 - 1). -/
theorem rsvp_attendance_reactivity_witness :
    ∃ db2, rsvpUpdate 3 40 RsvpStatus.declined c8DB = some db2 ∧
      ∀ uid ∈ payingAttendeeIds c8DB (Event.mk 40 90 SplitType.even false false), uid ≠ 3 →
        ∃ note, CostRow.mk 40 uid
            ((90 : ℚ) / ((((payingAttendeeIds c8DB
                (Event.mk 40 90 SplitType.even false false)).length - 1 : ℕ)) : ℚ)) note
          ∈ db2.eventCosts :=
  rsvp_attendance_reactivity c8DB 40 (Event.mk 40 90 SplitType.even false false) 3
    RsvpStatus.declined (by decide) rfl rfl (by decide) (by decide) (by decide) (by decide) rfl
    (by
      intro uid hmem
      have hlist : payingAttendeeIds c8DB (Event.mk 40 90 SplitType.even false false)
          = [1, 2, 3] := by decide
      rw [hlist] at hmem
      fin_cases hmem <;> rfl)

/-- The roster invariant of C9: at most one participant has isGroom = true. -/
def atMostOneGroom (db : DB) : Prop :=
  (db.users.filter (fun u => u.isGroom)).length ≤ 1

theorem recalculateEventCosts_users (eid : Nat) (db : DB) :
    (recalculateEventCosts eid db).users = db.users := by
  unfold recalculateEventCosts
  cases recalcResult eid db with
  | none => rfl
  | some rows => rfl

theorem foldl_recalc_users (ids : List Nat) (db : DB) :
    (ids.foldl (fun s eid => recalculateEventCosts eid s) db).users = db.users := by
  induction ids generalizing db with
  | nil => rfl
  | cons x xs ih =>
    simp only [List.foldl_cons]
    rw [ih, recalculateEventCosts_users]

theorem recalculateAllMandatoryCosts_users (db : DB) :
    (recalculateAllMandatoryCosts db).users = db.users := by
  unfold recalculateAllMandatoryCosts
  exact foldl_recalc_users _ db

theorem length_filter_map_congr (l : List User) (f : User → User) (p q : User → Bool)
    (h : ∀ u, p (f u) = q u) :
    ((l.map f).filter (fun u => p u)).length = (l.filter (fun u => q u)).length := by
  induction l with
  | nil => rfl
  | cons x xs ih =>
    simp only [List.map_cons, List.filter_cons, h]
    by_cases hx : q x = true
    · rw [if_pos hx, if_pos hx]
      simp only [List.length_cons, ih]
    · rw [if_neg hx, if_neg hx]
      exact ih

theorem length_filter_map_le (l : List User) (f : User → User) (p : User → Bool)
    (h : ∀ u, p (f u) = true → p u = true) :
    ((l.map f).filter (fun u => p u)).length ≤ (l.filter (fun u => p u)).length := by
  induction l with
  | nil => exact Nat.le_refl 0
  | cons x xs ih =>
    simp only [List.map_cons, List.filter_cons]
    by_cases hx : p (f x) = true
    · rw [if_pos hx, if_pos (h x hx)]
      simpa using ih
    · rw [if_neg hx]
      by_cases hx2 : p x = true
      · rw [if_pos hx2]
        exact Nat.le_succ_of_le ih
      · rw [if_neg hx2]
        exact ih

theorem length_filter_id_le_one (l : List User) (uid : Nat)
    (hpk : (l.map (fun w => w.id)).Nodup) :
    (l.filter (fun u => u.id == uid)).length ≤ 1 := by
  revert hpk
  induction l with
  | nil =>
    intro hpk
    exact Nat.zero_le 1
  | cons x xs ih =>
    intro hpk
    have hpk' := (List.nodup_cons.1 hpk).2
    have hxnot := (List.nodup_cons.1 hpk).1
    simp only [List.filter_cons]
    by_cases hx : (x.id == uid) = true
    · rw [if_pos hx]
      have hxid : x.id = uid := by simpa using hx
      have hnil : xs.filter (fun u => u.id == uid) = [] := by
        rw [List.filter_eq_nil_iff]
        intro w hw hcontra
        apply hxnot
        have hwid : w.id = uid := by simpa using hcontra
        exact List.mem_map.2 ⟨w, hw, (by rw [hwid, hxid] : w.id = x.id)⟩
      rw [hnil]
      exact Nat.le_refl 1
    · rw [if_neg hx]
      exact ih hpk'

/-- C9 (amended): from a roster with unique ids and at most one groom, the
admin groom assignment (which clears any current groom before setting the new
one in the same operation), trip-status updates and profile updates preserve
the at-most-one-groom invariant; registration, which copies isGroom from the
claimed guest-list entry without clearing the current groom, preserves it only
when the claimed entry is not flagged as groom or no participant is currently
groom.  The amendment is forced by the counterexample: the claim as frozen
promised preservation for every registration. -/
theorem groom_uniqueness_amended (db : DB)
    (hpk : (db.users.map (fun w => w.id)).Nodup)
    (hinv : atMostOneGroom db) :
    (∀ uid b, atMostOneGroom (adminSetGroom uid b db)) ∧
    (∀ uid st, atMostOneGroom (tripStatusUpdate uid st db)) ∧
    (∀ uid name, atMostOneGroom (profileUpdate uid name db)) ∧
    (∀ nid gid name db2, register nid gid name db = some db2 →
      ((∀ g ∈ db.guestList, g.gid = gid → g.isGroom = false)
        ∨ db.users.filter (fun u => u.isGroom) = []) →
      atMostOneGroom db2) := by
  refine ⟨?_, ?_, ?_, ?_⟩
  · intro uid b
    unfold adminSetGroom atMostOneGroom
    cases b with
    | false =>
      simp only [Bool.false_eq_true, if_false]
      have h : ∀ u : User,
          ((if u.id == uid then { u with isGroom := false } else u) : User).isGroom = true
            → u.isGroom = true := by
        intro u hu
        by_cases hc : (u.id == uid) = true
        · rw [if_pos hc] at hu
          exact absurd hu (by simp)
        · rw [if_neg hc] at hu
          exact hu
      exact le_trans (length_filter_map_le db.users _ _ h) hinv
    | true =>
      simp only [if_true]
      rw [List.map_map]
      have hcomp : ∀ u : User,
          (((fun v : User => if v.id == uid then { v with isGroom := true } else v) ∘
            (fun u : User => if u.isGroom then { u with isGroom := false } else u)) u).isGroom
          = (u.id == uid) := by
        intro u
        by_cases hg : u.isGroom = true <;> by_cases hc : (u.id == uid) = true <;>
          simp [Function.comp, hg, hc]
      exact le_trans
        (le_of_eq (length_filter_map_congr db.users _ _ (fun u => u.id == uid) hcomp))
        (length_filter_id_le_one db.users uid hpk)
  · intro uid st
    unfold tripStatusUpdate atMostOneGroom
    have h : ∀ u : User,
        ((if u.id == uid then { u with tripStatus := st } else u) : User).isGroom
          = u.isGroom := by
      intro u
      by_cases hc : (u.id == uid) = true <;> simp [hc]
    exact le_trans
      (le_of_eq (length_filter_map_congr db.users _ _ (fun u => u.isGroom) h)) hinv
  · intro uid name
    unfold profileUpdate atMostOneGroom
    have h : ∀ u : User,
        ((if u.id == uid then { u with displayName := name } else u) : User).isGroom
          = u.isGroom := by
      intro u
      by_cases hc : (u.id == uid) = true <;> simp [hc]
    exact le_trans
      (le_of_eq (length_filter_map_congr db.users _ _ (fun u => u.isGroom) h)) hinv
  · intro nid gid name db2 hreg hcond
    unfold register at hreg
    cases hfind : db.guestList.find? (fun g => g.gid == gid) with
    | none =>
      rw [hfind] at hreg
      simp at hreg
    | some g =>
      rw [hfind] at hreg
      by_cases hclaim : g.claimedBy.isSome = true
      · simp [hclaim] at hreg
      · have hclaimf : g.claimedBy.isSome = false := by simpa using hclaim
        by_cases hexists : (db.users.any (fun u => u.id == nid)) = true
        · simp [hclaimf, hexists] at hreg
        · have hexistsf : (db.users.any (fun u => u.id == nid)) = false := by
            simpa using hexists
          simp only [hclaimf, hexistsf, Bool.false_eq_true, if_false,
            Option.some.injEq] at hreg
          subst hreg
          unfold atMostOneGroom
          rw [recalculateAllMandatoryCosts_users]
          simp only []
          rcases hcond with hcond | hcond
          · have hg1 : g ∈ db.guestList := List.mem_of_find?_eq_some hfind
            have hg2 : g.gid = gid := by simpa using (List.find?_some hfind)
            have hgf : g.isGroom = false := hcond g hg1 hg2
            have hnew : (([User.mk nid g.isGroom g.isAdmin TripStatus.confirmed name]).filter
                (fun u => u.isGroom)) = [] := by
              simp [hgf]
            rw [List.filter_append, hnew]
            simpa using hinv
          · rw [List.filter_append, hcond]
            simp only [List.nil_append]
            exact le_trans (List.length_filter_le _ _) (by simp)

/-- Counterexample for C9 as frozen: a state with exactly one groom (user 1)
and an unclaimed guest-list entry flagged is_groom (as the seeded guest list
has for the groom) reaches, via the public registration operation alone, a
state with two grooms, because AuthService.register copies is_groom from the
guest entry without clearing user 1. -/
theorem register_second_groom_counterexample :
    ((DB.mk [] [User.mk 1 true false TripStatus.confirmed "a"] [] [] []
        [Guest.mk 5 false true none]).users.filter (fun u => u.isGroom)).length ≤ 1 ∧
    (register 2 5 "b" (DB.mk [] [User.mk 1 true false TripStatus.confirmed "a"] [] [] []
        [Guest.mk 5 false true none])).map
        (fun d => (d.users.filter (fun u => u.isGroom)).length) = some 2 :=
  ⟨by decide, by decide⟩

/-- Roster backing the C9 witness: user 1 is the current groom. -/
def c9wDB : DB :=
  DB.mk [] [User.mk 1 true false TripStatus.confirmed "a",
    User.mk 2 false false TripStatus.confirmed "b"] [] [] [] []

/-- Witness for the amended C9: reassigning groom status to user 2 and
declining user 1's trip both keep at most one groom. -/
theorem groom_uniqueness_amended_witness :
    atMostOneGroom (adminSetGroom 2 true c9wDB) ∧
    atMostOneGroom (tripStatusUpdate 1 TripStatus.declined c9wDB) :=
  ⟨(groom_uniqueness_amended c9wDB (by decide)
      (by decide : (c9wDB.users.filter (fun u => u.isGroom)).length ≤ 1)).1 2 true,
   (groom_uniqueness_amended c9wDB (by decide)
      (by decide : (c9wDB.users.filter (fun u => u.isGroom)).length ≤ 1)).2.1 1
      TripStatus.declined⟩

theorem adminCalculateCosts_main (eid : Nat) (db : DB) (event : Event)
    (hf : findEvent db eid = some event)
    (hne : adminPayerIds db event ≠ []) :
    adminCalculateCosts eid db
      = some { db with eventCosts := db.eventCosts.filter (fun c => c.eventId != eid)
          ++ ((adminPayerIds db event).map (fun uid => CostRow.mk eid uid
                (adminPerPersonCostNote db event (adminPayerIds db event)).1
                (adminPerPersonCostNote db event (adminPayerIds db event)).2)
              ++ adminGroomRows db eid event) } := by
  unfold adminCalculateCosts
  rw [hf]
  have h0 : ((adminPayerIds db event).length == 0) = false := by simp [hne]
  simp [h0]

/-- C10 (amended): restricted to MANDATORY events with splitType even or fixed,
totalCost > 0 and a non-empty payer set, the admin auto-split route succeeds
and produces exactly the same (event, participant, amount) row set as the
engine recompute, including the presence of the groom's $0 row.  The
restriction is forced by the counterexample: for optional events the route
charges the trip-confirmed roster while the engine charges RSVP-confirmed
participants (and the route also errors on empty payer sets instead of
clearing, treats custom as even, and skips the groom-attendance check), so the
claim as frozen fails. -/
theorem admin_calculate_matches_engine_amended (eid : Nat) (db : DB) (event : Event)
    (hf : findEvent db eid = some event)
    (hman : event.isMandatory = true)
    (hsplit : event.splitType = SplitType.even ∨ event.splitType = SplitType.fixed)
    (hT : 0 < event.totalCost)
    (hne : payingAttendeeIds db event ≠ []) :
    ∃ db2, adminCalculateCosts eid db = some db2 ∧
      db2.eventCosts.map (fun c => (c.eventId, c.userId, c.amount))
        = (recalculateEventCosts eid db).eventCosts.map
            (fun c => (c.eventId, c.userId, c.amount)) := by
  have hc : event.splitType ≠ SplitType.custom := by
    rcases hsplit with h | h <;> rw [h] <;> decide
  have hpay : adminPayerIds db event = payingAttendeeIds db event := by
    unfold adminPayerIds payingAttendeeIds
    rw [hman]
    simp
  have hmainEng := recalculateEventCosts_main eid db event hf hc (ne_of_gt hT) hne
  have hadmin := adminCalculateCosts_main eid db event hf (by rw [hpay]; exact hne)
  refine ⟨_, hadmin, ?_⟩
  rw [hmainEng]
  simp only []
  rw [hpay]
  have hgr : adminGroomRows db eid event = groomRows db eid event := by
    unfold adminGroomRows groomRows
    by_cases hex : event.excludeGroom = true
    · rw [hex]
      cases hfg : findGroom db with
      | none => simp
      | some groom => simp [hman]
    · have hexf : event.excludeGroom = false := by simpa using hex
      rw [hexf]
      simp
  rw [hgr]
  simp only [List.map_append, List.map_map, Function.comp]
  have hamount : (adminPerPersonCostNote db event (payingAttendeeIds db event)).1
      = (perPersonCostNote db event (payingAttendeeIds db event)).1 := by
    unfold adminPerPersonCostNote perPersonCostNote
    rcases hsplit with hs | hs
    · rw [hs]
      simp
    · rw [hs]
      by_cases hex : event.excludeGroom = true
      · have hall : (allAttendeeIds db event).length
            = (db.users.filter (fun u => u.tripStatus == TripStatus.confirmed)).length := by
          unfold allAttendeeIds
          rw [hman]
          simp [List.length_map]
        simp only [hex, if_true, beq_self_eq_true]
        rw [hall]
      · have hexf : event.excludeGroom = false := by simpa using hex
        simp [hexf]
  rw [hamount]
  congr 1

/-- Counterexample for C10 as frozen: on an optional even event whose only
user is trip-confirmed but has no RSVP, the admin route charges that user
while the engine recompute charges nobody, so the two row sets differ. -/
theorem admin_calculate_differs_counterexample :
    (adminCalculateCosts 12
        (DB.mk [Event.mk 12 100 SplitType.even false false]
          [User.mk 1 false false TripStatus.confirmed "a"] [] [] [] [])).map
        (fun d => d.eventCosts.map (fun c => (c.eventId, c.userId)))
      = some [(12, 1)] ∧
    (recalculateEventCosts 12
        (DB.mk [Event.mk 12 100 SplitType.even false false]
          [User.mk 1 false false TripStatus.confirmed "a"] [] [] [] [])).eventCosts.map
        (fun c => (c.eventId, c.userId)) = [] :=
  ⟨by decide, by decide⟩

/-- Database scenario backing the C10 witness: a mandatory even event with two
payers and an excluded groom. -/
def c10DB : DB :=
  DB.mk [Event.mk 50 100 SplitType.even true true]
    [User.mk 1 false false TripStatus.confirmed "a",
     User.mk 2 false false TripStatus.confirmed "b",
     User.mk 3 true false TripStatus.confirmed "g"] [] [] [] []

/-- Witness for the amended C10 at the mandatory-event scenario. -/
theorem admin_calculate_matches_engine_amended_witness :
    ∃ db2, adminCalculateCosts 50 c10DB = some db2 ∧
      db2.eventCosts.map (fun c => (c.eventId, c.userId, c.amount))
        = (recalculateEventCosts 50 c10DB).eventCosts.map
            (fun c => (c.eventId, c.userId, c.amount)) :=
  admin_calculate_matches_engine_amended 50 c10DB (Event.mk 50 100 SplitType.even true true)
    (by decide) rfl (Or.inl rfl) (by decide) (by decide)
